import Mathlib

/-! J1939 private header (`net/can/j1939/j1939-priv.h`).

A shallow embedding of the inline helpers, constants and record
declarations of `j1939-priv.h`, followed by theorems about them.

Conventions.
* `u8`, `u32`, `u64` values are natural numbers; where a parameter is a
  `u8` the theorems quantify over `addr < 256`.
* A C `bool` result is a Lean `Bool`; a C `int` result is an `Int`.
* `&` on unsigned operands is `&&&` on `Nat`; on the signed `tpflags` it is
  `int_and`, the bitwise and of the 32-bit two's-complement patterns.
-/

namespace J1939

/-! ## Constants -/

/-- Modelled from the spec: the constant `J1939_MAX_UNICAST_ADDR` of
`linux/can/j1939.h`, a header that is not part of this source tree.  The
specification gives the unicast range as 0 to 252 with 253 reserved, so the
largest unicast address is 252. -/
def J1939_MAX_UNICAST_ADDR : Nat := 252

/-- Modelled from the spec: the constant `J1939_IDLE_ADDR` of
`linux/can/j1939.h`; the specification gives 254 as the idle
(claiming / unclaimed) address. -/
def J1939_IDLE_ADDR : Nat := 254

/-- Modelled from the spec: the constant `J1939_NO_ADDR` of
`linux/can/j1939.h`; the specification gives 255 as the
no-address / broadcast-target value. -/
def J1939_NO_ADDR : Nat := 255

/-- `#define J1939_PGN_REQUEST 0x0ea00` -/
def J1939_PGN_REQUEST : Nat := 0x0ea00

/-- `#define J1939_PGN_ADDRESS_CLAIMED 0x0ee00` -/
def J1939_PGN_ADDRESS_CLAIMED : Nat := 0x0ee00

/-- `#define J1939_PGN_MAX 0x3ffff` -/
def J1939_PGN_MAX : Nat := 0x3ffff

/-- `#define BAM_NODELAY 1` -/
def BAM_NODELAY : Int := 1

/-! ## C `int` arithmetic -/

/-- The 32-bit two's-complement bit pattern of a C `int`. -/
def int_bits (x : Int) : Nat := (x % 2 ^ 32).toNat

/-- The C `int` whose 32-bit two's-complement bit pattern is `n % 2 ^ 32`. -/
def int_of_bits (n : Nat) : Int :=
  if n % 2 ^ 32 < 2 ^ 31 then ((n % 2 ^ 32 : Nat) : Int)
  else ((n % 2 ^ 32 : Nat) : Int) - 2 ^ 32

/-- The C operator `&` on two `int` operands. -/
def int_and (a b : Int) : Int := int_of_bits (int_bits a &&& int_bits b)

/-! ## Address and PGN predicates -/

/-- `return addr <= J1939_MAX_UNICAST_ADDR;` -/
def j1939_address_is_unicast (addr : Nat) : Bool :=
  decide (addr ≤ J1939_MAX_UNICAST_ADDR)

/-- `return addr == J1939_IDLE_ADDR;` -/
def j1939_address_is_idle (addr : Nat) : Bool :=
  decide (addr = J1939_IDLE_ADDR)

/-- `return addr != J1939_NO_ADDR;` -/
def j1939_address_is_valid (addr : Nat) : Bool :=
  decide (addr ≠ J1939_NO_ADDR)

/-- `return (pgn & 0xff00) < 0xf000;` (dp and res bits are ignored). -/
def j1939_pgn_is_pdu1 (pgn : Nat) : Bool :=
  decide ((pgn &&& 0xff00) < 0xf000)

/-! ## Records -/

/-- `struct j1939_ecu`, without its list linkage, timer and reference count. -/
structure j1939_ecu where
  name : Nat
  addr : Nat
  nusers : Int
  deriving DecidableEq, Repr

/-- `struct j1939_addr_ent`: one slot of the address cache.  The `ecu`
pointer is `none` when NULL, otherwise the referenced ECU. -/
structure j1939_addr_ent where
  ecu : Option j1939_ecu
  nusers : Int
  deriving DecidableEq, Repr

/-- `struct j1939_priv`: the ECU list and the address cache `ents[256]`.
The declared array length is carried by `ents_size`; the lock, the device
pointer and the reference count are not modelled. -/
structure j1939_priv where
  ecus : List j1939_ecu
  ents : Array j1939_addr_ent
  ents_size : ents.size = 256

/-- The C expression `priv->ents[addr]`, with the bounds check made explicit:
`none` is the out-of-range branch. -/
def j1939_priv.ents_at (priv : j1939_priv) (addr : Nat) : Option j1939_addr_ent :=
  if h : addr < priv.ents.size then some (priv.ents.get ⟨addr, h⟩) else none

/-- `struct j1939_addr` -/
structure j1939_addr where
  src_name : Nat
  dst_name : Nat
  pgn : Nat
  sa : Nat
  da : Nat
  deriving DecidableEq, Repr

/-- `struct j1939_sk_buff_cb`: the control buffer of the sk_buff.  `insock`
is `none` when NULL. -/
structure j1939_sk_buff_cb where
  addr : j1939_addr
  priority : Nat
  src_flags : Nat
  dst_flags : Nat
  tpflags : Int
  msg_flags : Nat
  insock : Option Nat
  deriving DecidableEq, Repr

/-- `if (skcb->tpflags & BAM_NODELAY) return 0; return 1;` -/
def j1939cb_use_bamdelay (skcb : j1939_sk_buff_cb) : Int :=
  if int_and skcb.tpflags BAM_NODELAY ≠ 0 then 0 else 1

/-! ## Record layout

The size of a C record under natural alignment: every member is placed at
the next multiple of its alignment, and the record is padded to a multiple
of the largest member alignment. -/

/-- Size and alignment, in bytes, of one member of a C record. -/
structure CMember where
  size : Nat
  align : Nat
  deriving DecidableEq, Repr

/-- Sizes and alignments that depend on the compilation target. -/
structure CTarget where
  ptr_size : Nat
  ptr_align : Nat
  u64_align : Nat
  deriving DecidableEq, Repr

/-- A 64-bit-pointer target (LP64): 8-byte pointers and 8-byte aligned `u64`. -/
def lp64 : CTarget := { ptr_size := 8, ptr_align := 8, u64_align := 8 }

/-- A 32-bit-pointer target with 8-byte aligned `u64` (for instance ARM EABI). -/
def ilp32 : CTarget := { ptr_size := 4, ptr_align := 4, u64_align := 8 }

/-- A 32-bit-pointer target with 4-byte aligned `u64` (for instance i386). -/
def ilp32_packed64 : CTarget := { ptr_size := 4, ptr_align := 4, u64_align := 4 }

/-- The least multiple of `a` that is at least `off`. -/
def align_up (off a : Nat) : Nat := (off + a - 1) / a * a

/-- The offset just past the last member when the members are laid out in
declaration order, each at the next multiple of its alignment. -/
def members_end (ms : List CMember) : Nat :=
  ms.foldl (fun off m => align_up off m.align + m.size) 0

/-- The alignment of a record: the largest alignment among its members. -/
def record_align (ms : List CMember) : Nat :=
  ms.foldl (fun a m => max a m.align) 1

/-- The value of `sizeof` for a record with the given members. -/
def record_size (ms : List CMember) : Nat :=
  align_up (members_end ms) (record_align ms)

/-- A `u8` member. -/
def c_u8 : CMember := { size := 1, align := 1 }

/-- A `u32` or `int` member. -/
def c_u32 : CMember := { size := 4, align := 4 }

/-- A `u64` member. -/
def c_u64 (t : CTarget) : CMember := { size := 8, align := t.u64_align }

/-- A pointer member. -/
def c_ptr (t : CTarget) : CMember := { size := t.ptr_size, align := t.ptr_align }

/-- Modelled from the spec: the typedef `name_t` of `linux/can/j1939.h`, a
64-bit NAME. -/
def c_name_t (t : CTarget) : CMember := c_u64 t

/-- Modelled from the spec: the typedef `pgn_t` of `linux/can/j1939.h`, held
in a 32-bit word. -/
def c_pgn_t : CMember := c_u32

/-- Modelled from the spec: the typedef `priority_t` of `linux/can/j1939.h`,
held in one byte. -/
def c_priority_t : CMember := c_u8

/-- Modelled from the spec: `sizeof(skb->cb)`, the 48-byte control buffer of
`struct sk_buff` declared in `linux/skbuff.h`. -/
def SKB_CB_SIZE : Nat := 48

/-- The members of `struct j1939_addr`, in declaration order:
`src_name`, `dst_name`, `pgn`, `sa`, `da`. -/
def j1939_addr_members (t : CTarget) : List CMember :=
  [c_name_t t, c_name_t t, c_pgn_t, c_u8, c_u8]

/-- The record `struct j1939_addr` as a member of an enclosing record. -/
def c_j1939_addr (t : CTarget) : CMember :=
  { size := record_size (j1939_addr_members t),
    align := record_align (j1939_addr_members t) }

/-- The members of `struct j1939_sk_buff_cb`, in declaration order: `addr`,
`priority`, `src_flags`, `dst_flags`, `tpflags`, `msg_flags`, `insock`. -/
def j1939_sk_buff_cb_members (t : CTarget) : List CMember :=
  [c_j1939_addr t, c_priority_t, c_u32, c_u32, c_u32, c_u32, c_ptr t]

/-- The value of `sizeof(struct j1939_sk_buff_cb)`. -/
def sizeof_j1939_sk_buff_cb (t : CTarget) : Nat :=
  record_size (j1939_sk_buff_cb_members t)

/-- The condition that `BUILD_BUG_ON` in `j1939_skb_to_cb` rejects:
`sizeof(struct j1939_sk_buff_cb) > sizeof(skb->cb)`. -/
def j1939_skb_to_cb_build_bug (t : CTarget) : Bool :=
  decide (sizeof_j1939_sk_buff_cb t > SKB_CB_SIZE)

/-! ## Auxiliary facts -/

/-- The mask `0xff00` selects the PDU-format byte: bits 8 to 15. -/
theorem and_ff00_eq_shift (pgn : Nat) :
    pgn &&& 0xff00 = ((pgn >>> 8) &&& 0xff) <<< 8 := by
  have hmask : (0xff00 : Nat) = 0xff <<< 8 := by decide
  rw [hmask]
  apply Nat.eq_of_testBit_eq
  intro i
  simp only [Nat.testBit_and, Nat.testBit_shiftLeft, Nat.testBit_shiftRight]
  by_cases hi : i ≥ 8
  · have hidx : 8 + (i - 8) = i := by omega
    simp [hi, hidx]
  · simp [hi]

/-- Bits at positions 16 and above do not reach the mask `0xff00`. -/
theorem xor_high_and_ff00 (pgn m : Nat) (hm : ∀ i, i < 16 → m.testBit i = false) :
    (pgn ^^^ m) &&& 0xff00 = pgn &&& 0xff00 := by
  apply Nat.eq_of_testBit_eq
  intro i
  simp only [Nat.testBit_and, Nat.testBit_xor]
  by_cases hi : i < 16
  · simp [hm i hi]
  · have hpow : (0xff00 : Nat) < 2 ^ i :=
      lt_of_lt_of_le (by decide : (0xff00 : Nat) < 2 ^ 16)
        (Nat.pow_le_pow_right (by decide) (by omega))
    simp [Nat.testBit_lt_two_pow hpow]

/-- Bit 0 of a two's-complement integer is its parity. -/
theorem int_testBit_zero (t : Int) : t.testBit 0 = true ↔ t % 2 = 1 := by
  cases t with
  | ofNat n =>
    simp only [Int.testBit, Nat.testBit_zero, decide_eq_true_eq, Int.ofNat_eq_coe]
    omega
  | negSucc n =>
    simp only [Int.testBit, Nat.testBit_zero, Bool.not_eq_true', Bool.not_eq_eq_eq_not,
      Bool.not_true, decide_eq_false_iff_not, Int.negSucc_eq]
    omega

/-- The result of `tpflags & BAM_NODELAY` is the parity of `tpflags`. -/
theorem int_and_BAM_NODELAY (t : Int) : int_and t BAM_NODELAY = t % 2 := by
  have hb : int_bits BAM_NODELAY = 1 := by decide
  have h2 : int_bits t % 2 < 2 := Nat.mod_lt _ (by decide)
  have hpar : ((int_bits t % 2 : Nat) : Int) = t % 2 := by
    unfold int_bits
    omega
  unfold int_and int_of_bits
  rw [hb, Nat.and_one_is_mod]
  have hsmall : int_bits t % 2 % 2 ^ 32 = int_bits t % 2 := by omega
  rw [hsmall, if_pos (by omega)]
  exact hpar

/-- The value of `j1939cb_use_bamdelay` is decided by bit 0 of `tpflags`. -/
theorem j1939cb_use_bamdelay_eq (skcb : j1939_sk_buff_cb) :
    j1939cb_use_bamdelay skcb = if skcb.tpflags.testBit 0 = true then 0 else 1 := by
  unfold j1939cb_use_bamdelay
  rw [int_and_BAM_NODELAY]
  by_cases hb : skcb.tpflags.testBit 0 = true
  · have h1 : skcb.tpflags % 2 = 1 := (int_testBit_zero _).mp hb
    simp [hb, h1]
  · have h1 : ¬ skcb.tpflags % 2 = 1 := fun h => hb ((int_testBit_zero _).mpr h)
    have h0 : skcb.tpflags % 2 = 0 := by omega
    simp [hb, h0]

/-- Every slot index below 256 is inside the address cache. -/
theorem ents_at_eq_get (priv : j1939_priv) (addr : Nat) (h : addr < 256) :
    priv.ents_at addr = some (priv.ents.get ⟨addr, by rw [priv.ents_size]; exact h⟩) := by
  have hs : addr < priv.ents.size := by rw [priv.ents_size]; exact h
  simp [j1939_priv.ents_at, hs]

/-! ## Address predicates -/

/-- C1: for every 8-bit address `addr`, `j1939_address_is_unicast addr` is true
exactly when `addr` lies in 0..252; it is false for the reserved value 253,
the idle value 254 and the no-address value 255. -/
theorem j1939_address_is_unicast_range (addr : Nat) (_h8 : addr < 256) :
    (j1939_address_is_unicast addr = true ↔ addr ≤ 252) ∧
    j1939_address_is_unicast 253 = false ∧
    j1939_address_is_unicast 254 = false ∧
    j1939_address_is_unicast 255 = false := by
  refine ⟨?_, by decide, by decide, by decide⟩
  simp [j1939_address_is_unicast, J1939_MAX_UNICAST_ADDR]

/-- Instance of C1 at the largest unicast address, 252. -/
theorem j1939_address_is_unicast_range_witness :
    252 < 256 ∧
    ((j1939_address_is_unicast 252 = true ↔ 252 ≤ 252) ∧
      j1939_address_is_unicast 253 = false ∧
      j1939_address_is_unicast 254 = false ∧
      j1939_address_is_unicast 255 = false) :=
  ⟨by decide, j1939_address_is_unicast_range 252 (by decide)⟩

/-- C4: for every 8-bit address `addr`, `j1939_address_is_idle addr` is true if
and only if `addr` equals 254, the idle sentinel. -/
theorem j1939_address_is_idle_iff (addr : Nat) (_h8 : addr < 256) :
    j1939_address_is_idle addr = true ↔ addr = 254 := by
  simp [j1939_address_is_idle, J1939_IDLE_ADDR]

/-- Instance of C4 at the idle address, 254. -/
theorem j1939_address_is_idle_iff_witness :
    254 < 256 ∧ (j1939_address_is_idle 254 = true ↔ 254 = 254) :=
  ⟨by decide, j1939_address_is_idle_iff 254 (by decide)⟩

/-- C5: for every 8-bit address `addr`, `j1939_address_is_valid addr` is false
if and only if `addr` equals 255, the no-address sentinel; every value in
0..254 is reported valid. -/
theorem j1939_address_is_valid_iff (addr : Nat) (_h8 : addr < 256) :
    (j1939_address_is_valid addr = false ↔ addr = 255) ∧
    (addr ≤ 254 → j1939_address_is_valid addr = true) := by
  constructor
  · simp [j1939_address_is_valid, J1939_NO_ADDR]
  · intro hle
    simp [j1939_address_is_valid, J1939_NO_ADDR]
    omega

/-- Instance of C5 at the idle address 254, which is still valid. -/
theorem j1939_address_is_valid_iff_witness :
    254 < 256 ∧
    ((j1939_address_is_valid 254 = false ↔ 254 = 255) ∧
      (254 ≤ 254 → j1939_address_is_valid 254 = true)) :=
  ⟨by decide, j1939_address_is_valid_iff 254 (by decide)⟩

/-- C9: for every 8-bit address `addr`, a unicast address is valid and is not
idle; no address is both unicast and idle, and the no-address sentinel is not
unicast. -/
theorem j1939_address_predicates_consistent (addr : Nat) (_h8 : addr < 256) :
    (j1939_address_is_unicast addr = true →
      j1939_address_is_valid addr = true ∧ j1939_address_is_idle addr = false) ∧
    ¬ (j1939_address_is_unicast addr = true ∧ j1939_address_is_idle addr = true) ∧
    j1939_address_is_unicast J1939_NO_ADDR = false := by
  refine ⟨?_, ?_, by decide⟩
  · intro hu
    simp only [j1939_address_is_unicast, J1939_MAX_UNICAST_ADDR, decide_eq_true_eq] at hu
    constructor
    · simp only [j1939_address_is_valid, J1939_NO_ADDR, decide_eq_true_eq]
      omega
    · simp only [j1939_address_is_idle, J1939_IDLE_ADDR, decide_eq_false_iff_not]
      omega
  · rintro ⟨hu, hi⟩
    simp only [j1939_address_is_unicast, J1939_MAX_UNICAST_ADDR, decide_eq_true_eq] at hu
    simp only [j1939_address_is_idle, J1939_IDLE_ADDR, decide_eq_true_eq] at hi
    omega

/-- Instance of C9 at the unicast address 42. -/
theorem j1939_address_predicates_consistent_witness :
    42 < 256 ∧
    ((j1939_address_is_unicast 42 = true →
        j1939_address_is_valid 42 = true ∧ j1939_address_is_idle 42 = false) ∧
      ¬ (j1939_address_is_unicast 42 = true ∧ j1939_address_is_idle 42 = true) ∧
      j1939_address_is_unicast J1939_NO_ADDR = false) :=
  ⟨by decide, j1939_address_predicates_consistent 42 (by decide)⟩

/-! ## Parameter group numbers -/

/-- C7: `j1939_pgn_is_pdu1` ignores the data-page and reserved bits: for every
`pgn` and every `m` whose set bits are all at positions 16 and above,
`j1939_pgn_is_pdu1 (pgn XOR m)` equals `j1939_pgn_is_pdu1 pgn`. -/
theorem j1939_pgn_is_pdu1_ignores_high_bits (pgn m : Nat)
    (hm : ∀ i, i < 16 → m.testBit i = false) :
    j1939_pgn_is_pdu1 (pgn ^^^ m) = j1939_pgn_is_pdu1 pgn := by
  unfold j1939_pgn_is_pdu1
  rw [xor_high_and_ff00 pgn m hm]

/-- Instance of C7: flipping the DP bit (16) and the reserved bit (17) of the
PDU2 group `0x0fe00`. -/
theorem j1939_pgn_is_pdu1_ignores_high_bits_witness :
    (∀ i, i < 16 → (0x30000 : Nat).testBit i = false) ∧
    j1939_pgn_is_pdu1 (0x0fe00 ^^^ 0x30000) = j1939_pgn_is_pdu1 0x0fe00 :=
  ⟨by decide, j1939_pgn_is_pdu1_ignores_high_bits 0x0fe00 0x30000 (by decide)⟩

/-- C8: `j1939_pgn_is_pdu1 pgn` is true if and only if the PDU-format byte
`(pgn >> 8) & 0xff` is less than 240; two PGNs that differ only in their low
byte (bits 0..7) get the same result. -/
theorem j1939_pgn_is_pdu1_iff_format (pgn other : Nat)
    (hlow : other >>> 8 = pgn >>> 8) :
    (j1939_pgn_is_pdu1 pgn = true ↔ ((pgn >>> 8) &&& 0xff) < 240) ∧
    j1939_pgn_is_pdu1 other = j1939_pgn_is_pdu1 pgn := by
  have hfmt : ∀ p : Nat, j1939_pgn_is_pdu1 p = decide (((p >>> 8) &&& 0xff) < 240) := by
    intro p
    unfold j1939_pgn_is_pdu1
    rw [and_ff00_eq_shift p, Nat.shiftLeft_eq]
    have h256 : (2 : Nat) ^ 8 = 256 := by decide
    rw [h256]
    apply decide_eq_decide.mpr
    omega
  constructor
  · rw [hfmt pgn]
    simp
  · rw [hfmt other, hfmt pgn, hlow]

/-- Instance of C8: the request group with low bytes `0x00` and `0xff`. -/
theorem j1939_pgn_is_pdu1_iff_format_witness :
    (0x0eaff : Nat) >>> 8 = (0x0ea00 : Nat) >>> 8 ∧
    ((j1939_pgn_is_pdu1 0x0ea00 = true ↔ (((0x0ea00 : Nat) >>> 8) &&& 0xff) < 240) ∧
      j1939_pgn_is_pdu1 0x0eaff = j1939_pgn_is_pdu1 0x0ea00) :=
  ⟨by decide, j1939_pgn_is_pdu1_iff_format 0x0ea00 0x0eaff (by decide)⟩

/-- C10: `J1939_PGN_MAX` equals `2^18 - 1`; `J1939_PGN_REQUEST` (`0x0ea00`) and
`J1939_PGN_ADDRESS_CLAIMED` (`0x0ee00`) are at most `J1939_PGN_MAX`, have a
zero low byte, and `j1939_pgn_is_pdu1` is true for both. -/
theorem j1939_well_known_pgns :
    J1939_PGN_MAX = 2 ^ 18 - 1 ∧
    J1939_PGN_REQUEST = 0x0ea00 ∧
    J1939_PGN_ADDRESS_CLAIMED = 0x0ee00 ∧
    J1939_PGN_REQUEST ≤ J1939_PGN_MAX ∧
    J1939_PGN_ADDRESS_CLAIMED ≤ J1939_PGN_MAX ∧
    J1939_PGN_REQUEST &&& 0xff = 0 ∧
    J1939_PGN_ADDRESS_CLAIMED &&& 0xff = 0 ∧
    j1939_pgn_is_pdu1 J1939_PGN_REQUEST = true ∧
    j1939_pgn_is_pdu1 J1939_PGN_ADDRESS_CLAIMED = true := by
  decide

/-! ## Transport flags -/

/-- C3: `j1939cb_use_bamdelay skcb` is 0 if and only if the `BAM_NODELAY` bit
(bit 0) is set in `skcb.tpflags`, and 1 otherwise; the result is always 0 or 1,
and any record `other` whose `tpflags` agrees with `skcb.tpflags` on bit 0 gets
the same result, whatever its other bits and fields are. -/
theorem j1939cb_use_bamdelay_spec (skcb other : j1939_sk_buff_cb)
    (hbit : other.tpflags.testBit 0 = skcb.tpflags.testBit 0) :
    (j1939cb_use_bamdelay skcb = 0 ↔ skcb.tpflags.testBit 0 = true) ∧
    (j1939cb_use_bamdelay skcb = 1 ↔ skcb.tpflags.testBit 0 = false) ∧
    (j1939cb_use_bamdelay skcb = 0 ∨ j1939cb_use_bamdelay skcb = 1) ∧
    j1939cb_use_bamdelay other = j1939cb_use_bamdelay skcb := by
  rw [j1939cb_use_bamdelay_eq skcb, j1939cb_use_bamdelay_eq other, hbit]
  cases skcb.tpflags.testBit 0 <;> simp

/-- Instance of C3: two records that differ in every field, with `tpflags`
equal to -3 and to 5, both of which have bit 0 set. -/
theorem j1939cb_use_bamdelay_spec_witness :
    (5 : Int).testBit 0 = (-3 : Int).testBit 0 ∧
    ((j1939cb_use_bamdelay ⟨⟨0, 0, 0x0ea00, 1, 2⟩, 6, 0, 0, -3, 0, none⟩ = 0 ↔
        (-3 : Int).testBit 0 = true) ∧
      (j1939cb_use_bamdelay ⟨⟨0, 0, 0x0ea00, 1, 2⟩, 6, 0, 0, -3, 0, none⟩ = 1 ↔
        (-3 : Int).testBit 0 = false) ∧
      (j1939cb_use_bamdelay ⟨⟨0, 0, 0x0ea00, 1, 2⟩, 6, 0, 0, -3, 0, none⟩ = 0 ∨
        j1939cb_use_bamdelay ⟨⟨0, 0, 0x0ea00, 1, 2⟩, 6, 0, 0, -3, 0, none⟩ = 1) ∧
      j1939cb_use_bamdelay ⟨⟨7, 8, 0x0ee00, 3, 4⟩, 3, 1, 1, 5, 64, some 9⟩ =
        j1939cb_use_bamdelay ⟨⟨0, 0, 0x0ea00, 1, 2⟩, 6, 0, 0, -3, 0, none⟩) :=
  ⟨by decide,
    j1939cb_use_bamdelay_spec ⟨⟨0, 0, 0x0ea00, 1, 2⟩, 6, 0, 0, -3, 0, none⟩
      ⟨⟨7, 8, 0x0ee00, 3, 4⟩, 3, 1, 1, 5, 64, some 9⟩ (by decide)⟩

/-! ## Address cache -/

/-- C6: the address cache `ents` has exactly 256 slots, one per value of an
address byte: for every 8-bit address `addr` the lookup `ents[addr]` is in
bounds (it never takes the out-of-range branch, which is taken exactly from
index 256 on), and the slot found holds at most one ECU reference together
with a user count of its own. -/
theorem j1939_priv_ents_in_bounds (priv : j1939_priv) (addr : Nat) (h8 : addr < 256) :
    priv.ents.size = 256 ∧
    priv.ents_at addr ≠ none ∧
    (∀ i, priv.ents_at i = none ↔ 256 ≤ i) ∧
    ∃ (ecu : Option j1939_ecu) (nusers : Int),
      priv.ents_at addr = some { ecu := ecu, nusers := nusers } ∧
      ecu.toList.length ≤ 1 := by
  refine ⟨priv.ents_size, ?_, ?_, ?_⟩
  · rw [ents_at_eq_get priv addr h8]
    exact Option.some_ne_none _
  · intro i
    have hsz := priv.ents_size
    unfold j1939_priv.ents_at
    by_cases hi : i < priv.ents.size
    · simp only [hi, dite_true]
      constructor
      · intro hnone
        exact absurd hnone (Option.some_ne_none _)
      · intro hge
        omega
    · simp only [hi, dite_false, true_iff]
      omega
  · refine ⟨(priv.ents.get ⟨addr, by rw [priv.ents_size]; exact h8⟩).ecu,
      (priv.ents.get ⟨addr, by rw [priv.ents_size]; exact h8⟩).nusers,
      ents_at_eq_get priv addr h8, ?_⟩
    cases (priv.ents.get ⟨addr, by rw [priv.ents_size]; exact h8⟩).ecu <;> simp

/-- Instance of C6: the last slot, 255, of a cache with every slot empty. -/
theorem j1939_priv_ents_in_bounds_witness :
    255 < 256 ∧
    ((mkArray 256 ({ ecu := none, nusers := 0 } : j1939_addr_ent)).size = 256 ∧
      j1939_priv.ents_at
        { ecus := [], ents := mkArray 256 { ecu := none, nusers := 0 },
          ents_size := Array.size_mkArray _ _ } 255 ≠ none ∧
      (∀ i, j1939_priv.ents_at
        { ecus := [], ents := mkArray 256 { ecu := none, nusers := 0 },
          ents_size := Array.size_mkArray _ _ } i = none ↔ 256 ≤ i) ∧
      ∃ (ecu : Option j1939_ecu) (nusers : Int),
        j1939_priv.ents_at
          { ecus := [], ents := mkArray 256 { ecu := none, nusers := 0 },
            ents_size := Array.size_mkArray _ _ } 255 = some { ecu := ecu, nusers := nusers } ∧
        ecu.toList.length ≤ 1) :=
  ⟨by decide,
    j1939_priv_ents_in_bounds
      { ecus := [], ents := mkArray 256 { ecu := none, nusers := 0 },
        ents_size := Array.size_mkArray _ _ } 255 (by decide)⟩

/-! ## Control-buffer layout -/

/-- C2: the size of `struct j1939_sk_buff_cb` under natural alignment, compared
with the 48-byte control buffer `skb->cb`.  On both 32-bit-pointer targets the
record takes 48 bytes and the `BUILD_BUG_ON` condition of `j1939_skb_to_cb` is
false.  On the 64-bit-pointer target the record takes 56 bytes, so the
condition is true and the bound of 48 bytes does not hold there. -/
theorem j1939_sk_buff_cb_size_by_target :
    sizeof_j1939_sk_buff_cb ilp32 = 48 ∧
    sizeof_j1939_sk_buff_cb ilp32_packed64 = 48 ∧
    j1939_skb_to_cb_build_bug ilp32 = false ∧
    j1939_skb_to_cb_build_bug ilp32_packed64 = false ∧
    sizeof_j1939_sk_buff_cb lp64 = 56 ∧
    ¬ (sizeof_j1939_sk_buff_cb lp64 ≤ SKB_CB_SIZE) ∧
    j1939_skb_to_cb_build_bug lp64 = true := by
  decide

end J1939
